import Mathlib

/-!
Shallow embedding of the dao-data-extractor pipeline
(`src/clients/alchemy.py`, `src/clients/etherscan.py`,
`src/utils/file_manager.py`, `src/models/dao.py`,
`src/extractors/blockchain.py`, `main.py`).
-/

namespace DaoExtractor

/-! ### Log data model and `_format_log` (alchemy.py lines 42-51) -/

/-- A raw log as returned by the provider: hash and topics are byte strings. -/
structure RawLog where
  blockNumber : Nat
  transactionHash : List Nat
  topics : List (List Nat)
  data : String
  logIndex : Nat
  transactionIndex : Nat
deriving DecidableEq, Repr

/-- A normalized log entry as produced by `_format_log`. -/
structure LogEntry where
  blockNumber : Nat
  transactionHash : String
  topics : List String
  data : String
  logIndex : Nat
  transactionIndex : Nat
deriving DecidableEq, Repr

/-- Lower-case hex digit for a nibble, as produced by `HexBytes.hex()`. -/
def hexChar (n : Nat) : Char :=
  if n < 10 then Char.ofNat (48 + n) else Char.ofNat (87 + n)

/-- Two hex digits of one byte. -/
def byteHex (b : Nat) : List Char :=
  [hexChar (b / 16 % 16), hexChar (b % 16)]

/-- `0x`-prefixed lower-case hex encoding of a byte string (`.hex()`). -/
def bytesToHex (bs : List Nat) : String :=
  ⟨'0' :: 'x' :: bs.flatMap byteHex⟩

/-- `AlchemyClient._format_log`: hex-encode hash and topics, keep the rest. -/
def formatLog (l : RawLog) : LogEntry :=
  { blockNumber := l.blockNumber
    transactionHash := bytesToHex l.transactionHash
    topics := l.topics.map bytesToHex
    data := l.data
    logIndex := l.logIndex
    transactionIndex := l.transactionIndex }

/-! ### Address validation (`Web3.to_checksum_address`, alchemy.py lines 34-40) -/

/-- Hex digit characters accepted in an address. -/
def isHexChar (c : Char) : Bool :=
  c.isDigit || ('a' ≤ c && c ≤ 'f') || ('A' ≤ c && c ≤ 'F')

/-- Modelled from the `web3` dependency: `Web3.to_checksum_address` succeeds
exactly on a `0x`-prefixed 40-hex-digit (20-byte) address and raises
`ValueError` otherwise; `_to_checksum_address` converts that into
`AlchemyError` (alchemy.py lines 34-40). -/
def isValidAddress (s : String) : Bool :=
  s.length == 42 && s.data.take 2 == ['0', 'x'] && (s.data.drop 2).all isHexChar

/-! ### The provider environment and the observable events of one call -/

/-- The provider world visible to one `get_logs` attempt: the current chain
head (`w3.eth.block_number`) and the outcome of `w3.eth.get_logs` for each
requested sub-range (an `Except` models a raised transport error). -/
structure Env where
  chainHead : Nat
  fetch : Nat → Nat → Except String (List RawLog)

/-- Observable events of a `get_logs` call: a rate-limiter wait
(`_throttle`), a provider request for one sub-range (`w3.eth.get_logs`),
and a delivery to the `on_batch_complete` callback. -/
inductive Event where
  | throttle : Event
  | fetchCall : Nat → Nat → Event
  | batchDelivered : List LogEntry → Event
deriving DecidableEq, Repr

/-- True on rate-limiter events. -/
def isThrottle : Event → Bool
  | .throttle => true
  | _ => false

/-- True on provider log requests. -/
def isFetchCall : Event → Bool
  | .fetchCall _ _ => true
  | _ => false

/-- The sub-ranges requested from the provider, in event order. -/
def fetchCallsOf (evs : List Event) : List (Nat × Nat) :=
  evs.filterMap fun e =>
    match e with
    | .fetchCall s t => some (s, t)
    | _ => none

/-- The batches delivered to the callback, in event order. -/
def batchesOf (evs : List Event) : List (List LogEntry) :=
  evs.filterMap fun e =>
    match e with
    | .batchDelivered ls => some ls
    | _ => none

/-! ### The pagination loop (alchemy.py lines 89-130) -/

/-- The `while current_block < to_block` loop of `get_logs`: request
`[current, min (current + batchSize) toBlock]`, deliver a non-empty batch to
the callback, extend the running list, then continue from `end_block + 1`.
A failed sub-range fetch raises `AlchemyError("Failed to fetch logs: ...")`
(lines 121-125) which aborts the loop. -/
def getLogsLoop (env : Env) (batchSize toBlock : Nat) (current : Nat)
    (acc : List LogEntry) (evs : List Event) :
    List Event × Except String (List LogEntry) :=
  if h : current < toBlock then
    let endBlock := min (current + batchSize) toBlock
    let evs1 := evs ++ [Event.fetchCall current endBlock]
    match env.fetch current endBlock with
    | .error e => (evs1, .error ("Failed to fetch logs: " ++ e))
    | .ok logs =>
      if logs.isEmpty then
        getLogsLoop env batchSize toBlock (endBlock + 1) acc evs1
      else
        let formatted := logs.map formatLog
        getLogsLoop env batchSize toBlock (endBlock + 1) (acc ++ formatted)
          (evs1 ++ [Event.batchDelivered formatted])
  else
    (evs, .ok acc)
termination_by toBlock - current
decreasing_by all_goals omega

/-- One attempt of `AlchemyClient.get_logs` (alchemy.py lines 57-134): one
`_throttle`, default batch size on a falsy argument, address validation,
falsy `to_block` replaced by the chain head, `from_block == 0` replaced by
the provider floor 12450964, then the pagination loop; every raised error
is re-wrapped as `AlchemyError("Failed to get logs: ...")` (lines 132-134). -/
def getLogsAttempt (env : Env) (address : String) (fromBlock : Nat)
    (toBlock : Option Nat) (batchSize : Option Nat) :
    List Event × Except String (List LogEntry) :=
  let bs := match batchSize with
    | none => 1000
    | some b => if b = 0 then 1000 else b
  if isValidAddress address then
    let tb := match toBlock with
      | none => env.chainHead
      | some t => if t = 0 then env.chainHead else t
    let fb := if fromBlock = 0 then 12450964 else fromBlock
    match getLogsLoop env bs tb fb [] [] with
    | (evs, .ok logs) => (Event.throttle :: evs, .ok logs)
    | (evs, .error e) =>
        (Event.throttle :: evs, .error ("Failed to get logs: " ++ e))
  else
    ([Event.throttle], .error ("Failed to get logs: Invalid Ethereum address: " ++ address))

/-- The `tenacity` `@retry(stop=stop_after_attempt(3), ...)` decorator on
`get_logs` (alchemy.py lines 53-56): re-run the whole call on any raised
error, at most the given number of attempts; after the final failure a
`RetryError` wrapping the last error is raised. Events of all attempts are
concatenated. -/
def retryRun {α : Type} (run : Nat → List Event × Except String α) :
    Nat → Nat → List Event × Except String α
  | 0, _ => ([], .error "RetryError")
  | n + 1, i =>
    let r := run i
    match r.2 with
    | .ok v => (r.1, .ok v)
    | .error e =>
      match n with
      | 0 => (r.1, .error ("RetryError: " ++ e))
      | m + 1 =>
        let rest := retryRun run (m + 1) (i + 1)
        (r.1 ++ rest.1, rest.2)

/-- `AlchemyClient.get_logs` as observed by a caller: the retry-decorated
attempt, with the provider world of attempt `i` given by `envs i`. -/
def getLogs (envs : Nat → Env) (address : String) (fromBlock : Nat)
    (toBlock : Option Nat) (batchSize : Option Nat) :
    List Event × Except String (List LogEntry) :=
  retryRun (fun i => getLogsAttempt (envs i) address fromBlock toBlock batchSize) 3 0

/-- The sub-ranges the pagination loop requests, as a pure function:
`(current, min (current + batchSize) toBlock)` while `current < toBlock`,
stepping to `end + 1`. -/
def subRanges (batchSize toBlock current : Nat) : List (Nat × Nat) :=
  if h : current < toBlock then
    let endBlock := min (current + batchSize) toBlock
    (current, endBlock) :: subRanges batchSize toBlock (endBlock + 1)
  else
    []
termination_by toBlock - current
decreasing_by omega

/-- The blocks of one inclusive sub-range. -/
def blockList (p : Nat × Nat) : List Nat :=
  List.range' p.1 (p.2 + 1 - p.1)

/-! ### String ordering, as used by Python `sorted()` on column names -/

/-- Lexicographic comparison of character lists by code point, the order
Python `sorted()` uses on strings. -/
def lexLe : List Char → List Char → Bool
  | [], _ => true
  | _ :: _, [] => false
  | x :: xs, y :: ys =>
    if x.toNat < y.toNat then true
    else if y.toNat < x.toNat then false
    else lexLe xs ys

/-- Lexicographic `≤` on strings. -/
def strLe (a b : String) : Bool :=
  lexLe a.data b.data

/-- Python `sorted()` on a list of column names. -/
def sortStrings (ks : List String) : List String :=
  List.insertionSort (fun a b => strLe a b = true) ks

/-! ### `FileManager` (`src/utils/file_manager.py`) -/

/-- A record (one Python dict written to the store); values are already
their textual representation, so the `str(...)` coercion of
`save_contract_data` is the identity here. -/
abbrev Rec := List (String × String)

/-- `item.keys()`. -/
def recKeys (r : Rec) : List String :=
  r.map Prod.fst

/-- `row.get(k, d)`. -/
def recGetD (r : Rec) (k d : String) : String :=
  match r.find? (fun p => p.1 == k) with
  | some p => p.2
  | none => d

/-- A Python `set` of strings, kept as a duplicate-free list in first-seen
order (the order is irrelevant once sorted). -/
def dedupKeep (ks : List String) : List String :=
  ks.foldl (fun a k => if k ∈ a then a else a ++ [k]) []

/-- `FileManager._get_all_fieldnames` followed by `sorted(...)`
(file_manager.py lines 22-27 and 88): the sorted union of the existing
fieldnames and every key of the incoming records. -/
def allFieldnames (data : List Rec) (existing : List String) : List String :=
  sortStrings (dedupKeep (existing ++ data.flatMap recKeys))

/-- The header row of a CSV file (`next(reader)`); an empty file has none. -/
def csvHeader : List (List String) → List String
  | [] => []
  | h :: _ => h

/-- Equality of two string lists as Python sets
(`set(all_fieldnames) != existing_fieldnames` negated). -/
def eqAsSet (a b : List String) : Bool :=
  a.all (b.contains ·) && b.all (a.contains ·)

/-- One CSV data row written by `csv.DictWriter.writerow`: the record's
values in field order, an empty cell for a missing key. -/
def mkRow (fields : List String) (r : Rec) : List String :=
  fields.map (fun k => recGetD r k "")

/-- The CSV part of `FileManager.save_contract_data` (file_manager.py lines
74-118), as a function from the existing file (`none` = file absent) to the
new file contents. `append` is the `append` argument; the incoming `data` is
non-empty at this point (the empty case returns at line 44-46). -/
def saveCsv (file : Option (List (List String))) (data : List Rec)
    (append : Bool) : List (List String) :=
  let existingF : List String :=
    match file, append with
    | some f, true => dedupKeep (csvHeader f)
    | _, _ => []
  let allF := allFieldnames data existingF
  let needRewrite := append && !existingF.isEmpty && !eqAsSet allF existingF
  if needRewrite then
    let old := file.getD []
    let oldHeader := csvHeader old
    let oldRows := old.drop 1
    allF ::
      (oldRows.map (fun cells => allF.map (fun k => recGetD (oldHeader.zip cells) k ""))
        ++ data.map (mkRow allF))
  else if append && file.isSome then
    file.getD [] ++ data.map (mkRow allF)
  else
    allF :: data.map (mkRow allF)

/-- The JSON file as `json.load` sees it: absent, unparsable, a list, or a
single non-list object. -/
inductive JsonFile where
  | absent : JsonFile
  | corrupt : JsonFile
  | list : List Rec → JsonFile
  | single : Rec → JsonFile
deriving DecidableEq, Repr

/-- The existing records read for an append (file_manager.py lines 53-62):
an absent or corrupt file is treated as empty, a non-list is wrapped. -/
def readJsonForAppend : JsonFile → List Rec
  | .absent => []
  | .corrupt => []
  | .list rs => rs
  | .single r => [r]

/-- The JSON part of `save_contract_data` (lines 50-68): existing records
(only read in append mode) followed by the new ones. -/
def saveJson (file : JsonFile) (data : List Rec) (append : Bool) : List Rec :=
  (if append then readJsonForAppend file else []) ++ data

/-- The two views written by `save_contract_data`. -/
inductive View where
  | json : View
  | csv : View
deriving DecidableEq, Repr

/-- The on-disk state for one `(dao, contract, dataType)` key. -/
structure StoreState where
  jsonFile : JsonFile
  csvFile : Option (List (List String))
deriving Repr

/-- Outcome of one `save_contract_data` call: which views were attempted
(in order), the raised error if any, and the resulting on-disk state. -/
structure SaveOutcome where
  attempted : List View
  result : Except String Unit
  state : StoreState
deriving Repr

/-- `FileManager.save_contract_data` (file_manager.py lines 29-122) with a
fault-injection flag per view: `jsonWriteOk` / `csvWriteOk` say whether the
write of that view raises. An empty batch is a logged no-op (lines 44-46);
a JSON failure is re-raised at line 72 before the CSV block is reached; a
CSV failure is re-raised at line 122. -/
def saveContractData (jsonWriteOk csvWriteOk : Bool) (st : StoreState)
    (data : List Rec) (append : Bool) : SaveOutcome :=
  if data.isEmpty then
    ⟨[], .ok (), st⟩
  else if !jsonWriteOk then
    ⟨[View.json], .error "Error saving JSON data", st⟩
  else
    let st1 : StoreState :=
      ⟨JsonFile.list (saveJson st.jsonFile data append), st.csvFile⟩
    if !csvWriteOk then
      ⟨[View.json, View.csv], .error "Error saving CSV data", st1⟩
    else
      ⟨[View.json, View.csv], .ok (),
        ⟨st1.jsonFile, some (saveCsv st.csvFile data append)⟩⟩

/-! ### `Contract` and `DAO` (`src/models/dao.py`) -/

/-- Python `str.lower` on one character (ASCII mapping, which is all ageless
`0x...` addresses use). -/
def pyLowerChar (c : Char) : Char :=
  if 65 ≤ c.toNat ∧ c.toNat ≤ 90 then Char.ofNat (c.toNat + 32) else c

/-- Python `str.lower`. -/
def pyLower (s : String) : String :=
  ⟨s.data.map pyLowerChar⟩

/-- Python `str.startswith`. -/
def strStartsWith (s p : String) : Bool :=
  p.data.isPrefixOf s.data

/-- The `Contract` dataclass (dao.py lines 5-15), after `__post_init__`. -/
structure Contract where
  address : String
  type : String
  name : String
  deployed_at : Option Nat
deriving DecidableEq, Repr

/-- `Contract.__post_init__` (dao.py lines 12-15): lower-case the address,
then require the `0x` prefix, raising `ValueError` otherwise. -/
def mkContract (address type name : String) (deployed_at : Option Nat) :
    Except String Contract :=
  let a := pyLower address
  if strStartsWith a "0x" then
    .ok ⟨a, type, name, deployed_at⟩
  else
    .error "Contract address must start with '0x'"

/-- The `DAO` dataclass (dao.py lines 17-22). -/
structure DAO where
  name : String
  description : String
  contracts : List Contract
  chain_id : Int
deriving Repr

/-! ### Orchestration (`src/extractors/blockchain.py` and `main.py`) -/

/-- The message logged when one contract fails (blockchain.py line 50). -/
def contractErrorLog (c : Contract) (e : String) : String :=
  "Error processing contract " ++ c.name ++ ": " ++ e

/-- The message logged when one DAO fails (main.py line 33). -/
def daoErrorLog (d : DAO) (e : String) : String :=
  "Error processing DAO " ++ d.name ++ ": " ++ e

/-- `BlockchainExtractor.process_dao` (blockchain.py lines 39-51): run the
per-contract step `f` (which may mutate the store state `σ` and raise, the
raised message being its `Option String` component) on every contract in
order; a raised error is caught at the contract boundary, logged, and the
loop continues. -/
def processDAO {σ : Type} (f : Contract → σ → σ × Option String) :
    List Contract → σ → σ × List String
  | [], s => (s, [])
  | c :: cs, s =>
    let r := f c s
    let rest := processDAO f cs r.1
    (rest.1,
      (match r.2 with
        | none => []
        | some e => [contractErrorLog c e]) ++ rest.2)

/-- The DAO loop of `main` (main.py lines 30-35): run the per-DAO step on
every DAO in order, catching and logging a failure at the DAO boundary. -/
def runAll {σ : Type} (g : DAO → σ → σ × Option String) :
    List DAO → σ → σ × List String
  | [], s => (s, [])
  | d :: ds, s =>
    let r := g d s
    let rest := runAll g ds r.1
    (rest.1,
      (match r.2 with
        | none => []
        | some e => [daoErrorLog d e]) ++ rest.2)

/-- The state reached by running a step on every element in order,
ignoring failures. -/
def applyAll {σ α : Type} (f : α → σ → σ × Option String) (xs : List α)
    (s : σ) : σ :=
  xs.foldl (fun st c => (f c st).1) s

/-- Every element paired with the outcome of its (single) attempt, in
processing order. -/
def runSeq {σ α : Type} (f : α → σ → σ × Option String) :
    List α → σ → List (α × Option String)
  | [], _ => []
  | c :: cs, s => (c, (f c s).2) :: runSeq f cs (f c s).1

/-! ### `EtherscanClient.get_contract_abi` (`src/clients/etherscan.py`) -/

/-- The parsed JSON body of an Etherscan response. -/
structure ApiData where
  status : String
  message : String
  result : String
deriving DecidableEq, Repr

/-- One HTTP exchange: a parsed body, or a raised
`requests.exceptions.RequestException` (transport error / bad HTTP status). -/
inductive HttpResult where
  | ok : ApiData → HttpResult
  | requestError : String → HttpResult
deriving DecidableEq, Repr

/-- Python `needle in hay` on strings (substring containment). -/
def containsSub (needle : List Char) : List Char → Bool
  | [] => needle.isEmpty
  | c :: t => needle.isPrefixOf (c :: t) || containsSub needle t

/-- One attempt of `get_contract_abi` (etherscan.py lines 181-212): a
verified contract returns its ABI, a reported rate limit raises
`EtherscanError` (transient), any other body is "not verified" and returns
`None`, and a transport error raises `EtherscanError`. -/
def getAbiAttempt (r : HttpResult) : Except String (Option String) :=
  match r with
  | .requestError m => .error ("Network error: " ++ m)
  | .ok d =>
    if d.status == "1" && d.message == "OK" then .ok (some d.result)
    else if containsSub "Max rate limit reached".data d.result.data then
      .error "Rate limit reached"
    else .ok none

/-- The `tenacity` decorator on `get_contract_abi` (etherscan.py lines
176-180): at most `n` attempts; a raised attempt is retried; when the last
attempt raises, `retry_error_callback` turns the exhaustion into a plain
`None` return value instead of re-raising. Returns the number of attempts
made together with the call's outcome. -/
def retryAbi (responses : Nat → HttpResult) :
    Nat → Nat → Nat × Except String (Option String)
  | 0, _ => (0, .ok none)
  | n + 1, i =>
    let a := getAbiAttempt (responses i)
    match a with
    | .ok v => (1, .ok v)
    | .error _ =>
      match n with
      | 0 => (1, .ok none)
      | m + 1 =>
        let r := retryAbi responses (m + 1) (i + 1)
        (r.1 + 1, r.2)

/-- `EtherscanClient.get_contract_abi` as observed by a caller: three
attempts, the body of attempt `i` given by `responses i`. -/
def getContractAbi (responses : Nat → HttpResult) :
    Nat × Except String (Option String) :=
  retryAbi responses 3 0

/-! ### Concrete fixtures for the log-fetching claims -/

/-- A syntactically valid 20-byte contract address. -/
def addrA : String := "0xaaaaaaaaaaaaaaaaaaaaaaaaaaaaaaaaaaaaaaaa"

/-- A raw log used in concrete scans. -/
def rawA : RawLog := ⟨100, [171], [[17]], "0xdead", 0, 0⟩

/-- A second raw log, distinct from `rawA`. -/
def rawB : RawLog := ⟨200, [205], [[34]], "0xbeef", 1, 1⟩

/-- A provider returning no logs anywhere. -/
def envEmpty : Env := ⟨10000, fun _ _ => .ok []⟩

/-- A provider returning exactly `[rawA]` for every sub-range. -/
def envA : Env := ⟨10000, fun _ _ => .ok [rawA]⟩

/-- A provider returning exactly `[rawB]` for every sub-range. -/
def envB : Env := ⟨10000, fun _ _ => .ok [rawB]⟩

/-- A provider whose every fetch raises with message `boom`. -/
def envBoom : Env := ⟨10000, fun _ _ => .error "boom"⟩

/-! ### Helper lemmas about the pagination loop -/

/-- The flattened blocks of the requested sub-ranges form one contiguous
ascending run starting at `current`; the run stops one block short of
`toBlock` exactly when `toBlock - current` is a multiple of
`batchSize + 1`. -/
theorem subRanges_cover (b : Nat) (hb : 0 < b) (t c : Nat) (hc : c ≤ t) :
    (subRanges b t c).flatMap blockList =
      List.range' c (if (t - c) % (b + 1) = 0 then t - c else t - c + 1) := by
  rw [subRanges]
  split
  · next h =>
    simp only []
    by_cases h2 : c + b < t
    · have hmin : min (c + b) t = c + b := by omega
      rw [hmin, List.flatMap_cons, subRanges_cover b hb t (c + b + 1) (by omega)]
      have hbl : blockList (c, c + b) = List.range' c (b + 1) := by
        simp only [blockList]; congr 1; omega
      rw [hbl]
      have hsplit : t - c = t - (c + b + 1) + (b + 1) := by omega
      have hc1 : c + b + 1 = c + (b + 1) := by omega
      by_cases h3 : (t - (c + b + 1)) % (b + 1) = 0
      · rw [if_pos h3, if_pos (by rw [hsplit, Nat.add_mod_right]; exact h3)]
        rw [hc1, List.range'_append_1]
        congr 1
        omega
      · rw [if_neg h3, if_neg (by rw [hsplit, Nat.add_mod_right]; exact h3)]
        rw [hc1, List.range'_append_1]
        congr 1
        omega
    · have hmin : min (c + b) t = t := by omega
      rw [hmin, show subRanges b t (t + 1) = [] from by rw [subRanges]; simp]
      simp only [List.flatMap_cons, List.flatMap_nil, List.append_nil]
      have hlt : (t - c) % (b + 1) = t - c := Nat.mod_eq_of_lt (by omega)
      rw [if_neg (by rw [hlt]; omega)]
      simp only [blockList]
      congr 1
      omega
  · next h =>
    rw [show t - c = 0 from by omega]
    simp
termination_by t - c
decreasing_by omega

/-- Every requested sub-range lies inside `[current, toBlock]` and spans at
most `batchSize + 1` blocks. -/
theorem subRanges_bounds (b t : Nat) (c : Nat) :
    ∀ p ∈ subRanges b t c, c ≤ p.1 ∧ p.1 ≤ p.2 ∧ p.2 ≤ t ∧ p.2 - p.1 ≤ b := by
  intro p hp
  rw [subRanges] at hp
  split at hp
  · next h =>
    simp only [List.mem_cons] at hp
    rcases hp with rfl | hp
    · simp only []
      omega
    · have := subRanges_bounds b t (min (c + b) t + 1) p hp
      omega
  · simp at hp
termination_by t - c
decreasing_by omega

/-- When every fetch succeeds, the loop requests exactly the sub-ranges of
`subRanges`, delivers one batch per sub-range with a non-empty result, and
accumulates the formatted entries of all sub-ranges in order. -/
theorem getLogsLoop_ok (env : Env) (f : Nat → Nat → List RawLog)
    (hf : ∀ s e, env.fetch s e = .ok (f s e)) (b t c : Nat)
    (acc : List LogEntry) (evs : List Event) :
    getLogsLoop env b t c acc evs =
      (evs ++ (subRanges b t c).flatMap (fun p =>
          Event.fetchCall p.1 p.2 ::
            if (f p.1 p.2).isEmpty then []
            else [Event.batchDelivered ((f p.1 p.2).map formatLog)]),
       .ok (acc ++ (subRanges b t c).flatMap
          (fun p => (f p.1 p.2).map formatLog))) := by
  rw [getLogsLoop, subRanges]
  split
  · next h =>
    simp only [hf]
    by_cases he : (f c (min (c + b) t)).isEmpty
    · rw [if_pos he]
      rw [getLogsLoop_ok env f hf b t (min (c + b) t + 1) acc
        (evs ++ [Event.fetchCall c (min (c + b) t)])]
      have hfe : f c (min (c + b) t) = [] := by
        simpa [List.isEmpty_iff] using he
      simp [hfe, List.flatMap_cons]
    · rw [if_neg he]
      rw [getLogsLoop_ok env f hf b t (min (c + b) t + 1)
        (acc ++ (f c (min (c + b) t)).map formatLog)
        (evs ++ [Event.fetchCall c (min (c + b) t)]
          ++ [Event.batchDelivered ((f c (min (c + b) t)).map formatLog)])]
      have hne : f c (min (c + b) t) ≠ [] := by
        simpa [List.isEmpty_iff] using he
      simp [hne, List.flatMap_cons]
  · next h =>
    simp
termination_by t - c
decreasing_by all_goals omega

/-- A successful attempt ends the retry-decorated call at once. -/
theorem retryRun_succ_ok {α : Type} (run : Nat → List Event × Except String α)
    (n i : Nat) (evs : List Event) (v : α) (h : run i = (evs, .ok v)) :
    retryRun run (n + 1) i = (evs, .ok v) := by
  conv_lhs => rw [retryRun]
  simp only [h]

/-- A failed non-final attempt defers to the remaining attempts, keeping its
events. -/
theorem retryRun_succ_err {α : Type} (run : Nat → List Event × Except String α)
    (n i : Nat) (evs : List Event) (e : String) (h : run i = (evs, .error e)) :
    retryRun run (n + 1 + 1) i =
      (evs ++ (retryRun run (n + 1) (i + 1)).1, (retryRun run (n + 1) (i + 1)).2) := by
  conv_lhs => rw [retryRun]
  simp only [h]

/-- A failed final attempt surfaces a `RetryError` wrapping its error. -/
theorem retryRun_one_err {α : Type} (run : Nat → List Event × Except String α)
    (i : Nat) (evs : List Event) (e : String) (h : run i = (evs, .error e)) :
    retryRun run 1 i = (evs, .error ("RetryError: " ++ e)) := by
  conv_lhs => rw [retryRun]
  simp only [h]

/-- A first successful attempt is the whole retry-decorated call. -/
theorem retryRun_first_ok {α : Type} (run : Nat → List Event × Except String α)
    (evs : List Event) (v : α) (h : run 0 = (evs, .ok v)) :
    retryRun run 3 0 = (evs, .ok v) :=
  retryRun_succ_ok run 2 0 evs v h

/-- When every attempt fails, the three attempts run in order and the call
fails with a `RetryError` wrapping the last error. -/
theorem retryRun_all_err {α : Type} (run : Nat → List Event × Except String α)
    (evs0 evs1 evs2 : List Event) (e0 e1 e2 : String)
    (h0 : run 0 = (evs0, .error e0)) (h1 : run 1 = (evs1, .error e1))
    (h2 : run 2 = (evs2, .error e2)) :
    retryRun run 3 0 = (evs0 ++ (evs1 ++ evs2), .error ("RetryError: " ++ e2)) := by
  have s2 : retryRun run 1 2 = (evs2, .error ("RetryError: " ++ e2)) :=
    retryRun_one_err run 2 evs2 e2 h2
  have s1 : retryRun run 2 1 =
      (evs1 ++ (retryRun run 1 2).1, (retryRun run 1 2).2) :=
    retryRun_succ_err run 0 1 evs1 e1 h1
  have s0 : retryRun run 3 0 =
      (evs0 ++ (retryRun run 2 1).1, (retryRun run 2 1).2) :=
    retryRun_succ_err run 1 0 evs0 e0 h0
  rw [s0, s1, s2]

/-- `fetchCallsOf` of the event list produced by an all-ok loop is the
sub-range list itself. -/
theorem fetchCallsOf_flatMap (g : Nat × Nat → List LogEntry)
    (P : Nat × Nat → Bool) (l : List (Nat × Nat)) :
    fetchCallsOf (l.flatMap (fun p =>
        Event.fetchCall p.1 p.2 ::
          if P p then [] else [Event.batchDelivered (g p)])) = l := by
  induction l with
  | nil => rfl
  | cons p l ih =>
    by_cases hp : P p <;>
      simp_all [fetchCallsOf, List.flatMap_cons, List.filterMap_append]

/-- `batchesOf` of the event list produced by an all-ok loop is one batch
per sub-range whose predicate fails (non-empty result), in order. -/
theorem batchesOf_flatMap (g : Nat × Nat → List LogEntry)
    (P : Nat × Nat → Bool) (l : List (Nat × Nat)) :
    batchesOf (l.flatMap (fun p =>
        Event.fetchCall p.1 p.2 ::
          if P p then [] else [Event.batchDelivered (g p)])) =
      (l.filter (fun p => !P p)).map g := by
  induction l with
  | nil => rfl
  | cons p l ih =>
    by_cases hp : P p <;>
      simp_all [batchesOf, List.flatMap_cons, List.filterMap_append,
        List.filter_cons]

/-- One all-ok attempt of `get_logs` on an explicit non-zero `to_block`:
one throttle, then the events and accumulated result of the loop over
`subRanges 1000 t fb`. -/
theorem getLogsAttempt_ok (env : Env) (f : Nat → Nat → List RawLog)
    (hf : ∀ s e, env.fetch s e = .ok (f s e)) (addr : String)
    (ha : isValidAddress addr = true) (fb t : Nat) (hfb : fb ≠ 0) (ht : t ≠ 0) :
    getLogsAttempt env addr fb (some t) none =
      (Event.throttle :: (subRanges 1000 t fb).flatMap (fun p =>
          Event.fetchCall p.1 p.2 ::
            if (f p.1 p.2).isEmpty then []
            else [Event.batchDelivered ((f p.1 p.2).map formatLog)]),
       .ok ((subRanges 1000 t fb).flatMap (fun p => (f p.1 p.2).map formatLog))) := by
  have hloop := getLogsLoop_ok env f hf 1000 t fb [] []
  simp only [getLogsAttempt, ha, ht, hfb, hloop, List.nil_append, if_true,
    if_neg, ite_false]

/-- An attempt of `get_logs` with an invalid contract address: only the
throttle happens, no provider request is made, and the attempt raises. -/
theorem getLogsAttempt_invalid (env : Env) (addr : String)
    (ha : isValidAddress addr = false) (fb : Nat) (tb bs : Option Nat) :
    getLogsAttempt env addr fb tb bs =
      ([Event.throttle],
       .error ("Failed to get logs: Invalid Ethereum address: " ++ addr)) := by
  simp [getLogsAttempt, ha]

/-- An attempt of `get_logs` whose very first sub-range fetch raises: the
attempt stops there and surfaces an error that names the cause but not the
sub-range bounds. -/
theorem getLogsAttempt_firstErr (env : Env) (addr : String)
    (ha : isValidAddress addr = true) (fb t : Nat) (hfb : fb ≠ 0) (ht : t ≠ 0)
    (hlt : fb < t) (e : String)
    (hfe : env.fetch fb (min (fb + 1000) t) = .error e) :
    getLogsAttempt env addr fb (some t) none =
      ([Event.throttle, Event.fetchCall fb (min (fb + 1000) t)],
       .error ("Failed to get logs: " ++ ("Failed to fetch logs: " ++ e))) := by
  have hloop : getLogsLoop env 1000 t fb [] [] =
      ([Event.fetchCall fb (min (fb + 1000) t)],
       .error ("Failed to fetch logs: " ++ e)) := by
    rw [getLogsLoop, dif_pos hlt]
    simp only [hfe, List.nil_append]
  simp only [getLogsAttempt, ha, ht, hfb, if_true, if_neg, if_false]
  rw [hloop]

/-- When a predicate-true element maps to `[]`, flattening the batches of
the filtered list recovers the full `flatMap`. -/
theorem flatten_filtered {β : Type} (g : Nat × Nat → List β) (P : Nat × Nat → Bool)
    (hg : ∀ p, P p = true → g p = []) (l : List (Nat × Nat)) :
    ((l.filter (fun p => !P p)).map g).flatten = l.flatMap g := by
  induction l with
  | nil => rfl
  | cons p l ih =>
    by_cases hp : P p
    · simp [List.filter_cons, hp, ih, hg p hp]
    · simp [List.filter_cons, hp, ih]

/-- `addrA` passes address validation. -/
theorem addrA_valid : isValidAddress addrA = true := by decide

/-- The one-block range `[5, 5]` yields no sub-range at all. -/
theorem subRanges_five : subRanges 1000 5 5 = [] := by
  rw [subRanges]; simp

/-- The range `[1, 2000]` with batch size 1000 is split into
`[1, 1001]` and `[1002, 2000]`. -/
theorem subRanges_two_thousand :
    subRanges 1000 2000 1 = [(1, 1001), (1002, 2000)] := by
  rw [subRanges]
  norm_num
  rw [subRanges]
  norm_num
  rw [subRanges]
  norm_num

/-- The range `[1, 500]` is a single sub-range `[1, 500]`. -/
theorem subRanges_one_batch : subRanges 1000 500 1 = [(1, 500)] := by
  rw [subRanges]
  norm_num
  rw [subRanges]
  norm_num

/-! ### Claim C2 — pagination of `[fromBlock, toBlock]` -/

/-- Claim C2, refuted at concrete inputs. With `fromBlock = toBlock = 5`
(a non-empty one-block range, `fromBlock ≤ toBlock`, positive batch size)
the call makes no provider request at all, so the delivered batches cannot
cover `[5, 5]` — block 5 is never scanned. And in a scan of `[1, 2000]`
the first requested sub-range is `[1, 1001]`, which spans 1001 blocks,
exceeding the claimed bound of at most 1000 blocks per sub-range. -/
theorem c2_counterexample :
    (getLogs (fun _ => envEmpty) addrA 5 (some 5) none =
        ([Event.throttle], .ok [])
      ∧ fetchCallsOf [Event.throttle] = []
      ∧ blockList (5, 5) = [5])
    ∧ (fetchCallsOf (getLogs (fun _ => envEmpty) addrA 1 (some 2000) none).1 =
        [(1, 1001), (1002, 2000)]
      ∧ blockList (1, 1001) = List.range' 1 1001
      ∧ 1000 < 1001) := by
  have hone : getLogsAttempt envEmpty addrA 5 (some 5) none =
      ([Event.throttle], .ok []) := by
    have h := getLogsAttempt_ok envEmpty (fun _ _ => []) (fun _ _ => rfl)
      addrA addrA_valid 5 5 (by decide) (by decide)
    simpa [subRanges_five] using h
  have htwo : getLogsAttempt envEmpty addrA 1 (some 2000) none =
      (Event.throttle :: [Event.fetchCall 1 1001, Event.fetchCall 1002 2000],
       .ok []) := by
    have h := getLogsAttempt_ok envEmpty (fun _ _ => []) (fun _ _ => rfl)
      addrA addrA_valid 1 2000 (by decide) (by decide)
    simpa [subRanges_two_thousand] using h
  have h5 : getLogs (fun _ => envEmpty) addrA 5 (some 5) none =
      ([Event.throttle], .ok []) := by
    unfold getLogs
    exact retryRun_succ_ok _ 2 0 _ _ hone
  have h2k : getLogs (fun _ => envEmpty) addrA 1 (some 2000) none =
      (Event.throttle :: [Event.fetchCall 1 1001, Event.fetchCall 1002 2000],
       .ok []) := by
    unfold getLogs
    exact retryRun_succ_ok _ 2 0 _ _ htwo
  refine ⟨⟨h5, by decide, by decide⟩, ?_, by norm_num [blockList], by decide⟩
  rw [h2k]
  decide

/-- Claim C2 as amended: for a valid address and an all-ok provider, the
scanned sub-ranges are exactly `subRanges 1000 toBlock fromBlock`; they are
consecutive, non-overlapping and ascending, but each spans up to 1001 (not
1000) blocks, and their union covers `[fromBlock, toBlock]` except that the
final block `toBlock` is omitted whenever `toBlock - fromBlock` is a
multiple of 1001 (in particular, a `fromBlock = toBlock` range is never
scanned); exactly one batch is delivered per sub-range with a non-empty
fetch result, in scan order. -/
theorem c2_amended (env : Env) (f : Nat → Nat → List RawLog)
    (hf : ∀ s e, env.fetch s e = .ok (f s e)) (addr : String)
    (ha : isValidAddress addr = true) (fb t : Nat) (hfb : fb ≠ 0) (ht : t ≠ 0)
    (hle : fb ≤ t) :
    fetchCallsOf (getLogs (fun _ => env) addr fb (some t) none).1 =
      subRanges 1000 t fb
    ∧ (subRanges 1000 t fb).flatMap blockList =
        List.range' fb (if (t - fb) % 1001 = 0 then t - fb else t - fb + 1)
    ∧ (∀ p ∈ subRanges 1000 t fb, p.1 ≤ p.2 ∧ p.2 + 1 - p.1 ≤ 1001)
    ∧ batchesOf (getLogs (fun _ => env) addr fb (some t) none).1 =
        ((subRanges 1000 t fb).filter (fun p => !(f p.1 p.2).isEmpty)).map
          (fun p => (f p.1 p.2).map formatLog) := by
  have hatt := getLogsAttempt_ok env f hf addr ha fb t hfb ht
  have hcall := retryRun_first_ok
    (fun i => getLogsAttempt env addr fb (some t) none) _ _ hatt
  have hcall2 : getLogs (fun _ => env) addr fb (some t) none =
      (Event.throttle :: (subRanges 1000 t fb).flatMap (fun p =>
          Event.fetchCall p.1 p.2 ::
            if (f p.1 p.2).isEmpty then []
            else [Event.batchDelivered ((f p.1 p.2).map formatLog)]),
       .ok ((subRanges 1000 t fb).flatMap (fun p => (f p.1 p.2).map formatLog))) :=
    hcall
  refine ⟨?_, ?_, ?_, ?_⟩
  · rw [hcall2]
    simpa [fetchCallsOf] using fetchCallsOf_flatMap
      (fun p => (f p.1 p.2).map formatLog)
      (fun p => (f p.1 p.2).isEmpty) (subRanges 1000 t fb)
  · exact subRanges_cover 1000 (by decide) t fb hle
  · intro p hp
    have := subRanges_bounds 1000 t fb p hp
    omega
  · rw [hcall2]
    simpa [batchesOf] using batchesOf_flatMap
      (fun p => (f p.1 p.2).map formatLog)
      (fun p => (f p.1 p.2).isEmpty) (subRanges 1000 t fb)

/-- Witness for the amended C2 at a concrete scan of `[1, 2000]`. -/
theorem c2_amended_witness :
    ((1 : Nat) ≠ 0 ∧ (2000 : Nat) ≠ 0 ∧ (1 : Nat) ≤ 2000)
    ∧ fetchCallsOf (getLogs (fun _ => envEmpty) addrA 1 (some 2000) none).1 =
        subRanges 1000 2000 1 :=
  ⟨⟨by decide, by decide, by decide⟩,
    (c2_amended envEmpty (fun _ _ => []) (fun _ _ => rfl) addrA addrA_valid
      1 2000 (by decide) (by decide) (by decide)).1⟩

/-! ### Claim C3 — rate limiting and retry granularity -/

/-- Claim C3, refuted at a concrete input. In a successful scan of
`[1, 2000]` there are two sub-range fetches but only ONE rate-limiter
acquire: `_throttle` runs once per `get_logs` call, not before each
sub-range fetch, so the claimed per-sub-range acquire does not hold. -/
theorem c3_counterexample :
    (getLogs (fun _ => envA) addrA 1 (some 2000) none).1.countP
        (fun e => isThrottle e) = 1
    ∧ (getLogs (fun _ => envA) addrA 1 (some 2000) none).1.countP
        (fun e => isFetchCall e) = 2
    ∧ (1 : Nat) < 2 := by
  have hatt : getLogsAttempt envA addrA 1 (some 2000) none =
      ([Event.throttle, Event.fetchCall 1 1001,
        Event.batchDelivered [formatLog rawA], Event.fetchCall 1002 2000,
        Event.batchDelivered [formatLog rawA]],
       .ok [formatLog rawA, formatLog rawA]) := by
    have h := getLogsAttempt_ok envA (fun _ _ => [rawA]) (fun _ _ => rfl)
      addrA addrA_valid 1 2000 (by decide) (by decide)
    simpa [subRanges_two_thousand] using h
  have hcall : getLogs (fun _ => envA) addrA 1 (some 2000) none =
      ([Event.throttle, Event.fetchCall 1 1001,
        Event.batchDelivered [formatLog rawA], Event.fetchCall 1002 2000,
        Event.batchDelivered [formatLog rawA]],
       .ok [formatLog rawA, formatLog rawA]) := by
    unfold getLogs
    exact retryRun_succ_ok _ 2 0 _ _ hatt
  rw [hcall]
  exact ⟨by decide, by decide, by decide⟩

/-- Claim C3 as amended: the rate-limiter acquire happens once per
`get_logs` attempt (not per sub-range), and the retry policy (3 attempts)
wraps the whole call, so a failing sub-range fetch aborts the attempt and
restarts the scan from the beginning; when all three attempts fail, the
call fails with an error that carries the cause but not the sub-range
bounds, and no batch is ever delivered silently dropping the sub-range. -/
theorem c3_amended (envs : Nat → Env) (cause : String)
    (hfail : ∀ i s e, (envs i).fetch s e = .error cause)
    (addr : String) (ha : isValidAddress addr = true)
    (fb t : Nat) (hfb : fb ≠ 0) (ht : t ≠ 0) (hlt : fb < t) :
    getLogs envs addr fb (some t) none =
      ([Event.throttle, Event.fetchCall fb (min (fb + 1000) t),
        Event.throttle, Event.fetchCall fb (min (fb + 1000) t),
        Event.throttle, Event.fetchCall fb (min (fb + 1000) t)],
       .error ("RetryError: " ++ ("Failed to get logs: " ++
          ("Failed to fetch logs: " ++ cause))))
    ∧ (getLogs envs addr fb (some t) none).1.countP
        (fun e => isThrottle e) = 3
    ∧ batchesOf (getLogs envs addr fb (some t) none).1 = [] := by
  have hattempt : ∀ i, getLogsAttempt (envs i) addr fb (some t) none =
      ([Event.throttle, Event.fetchCall fb (min (fb + 1000) t)],
       .error ("Failed to get logs: " ++ ("Failed to fetch logs: " ++ cause))) :=
    fun i => getLogsAttempt_firstErr (envs i) addr ha fb t hfb ht hlt cause
      (hfail i fb (min (fb + 1000) t))
  have hcall : getLogs envs addr fb (some t) none =
      ([Event.throttle, Event.fetchCall fb (min (fb + 1000) t)] ++
        ([Event.throttle, Event.fetchCall fb (min (fb + 1000) t)] ++
          [Event.throttle, Event.fetchCall fb (min (fb + 1000) t)]),
       .error ("RetryError: " ++ ("Failed to get logs: " ++
          ("Failed to fetch logs: " ++ cause)))) := by
    unfold getLogs
    exact retryRun_all_err _ _ _ _ _ _ _ (hattempt 0) (hattempt 1) (hattempt 2)
  refine ⟨by simpa using hcall, ?_, ?_⟩
  · rw [hcall]
    simp [List.countP_cons, isThrottle]
  · rw [hcall]
    simp [batchesOf]

/-- Witness for the amended C3: a provider whose every fetch raises `boom`
makes the call re-throttle and re-fetch three times. -/
theorem c3_amended_witness :
    (isValidAddress addrA = true ∧ (1 : Nat) ≠ 0 ∧ (10 : Nat) ≠ 0 ∧ (1 : Nat) < 10)
    ∧ (getLogs (fun _ => envBoom) addrA 1 (some 10) none).1.countP
        (fun e => isThrottle e) = 3 :=
  ⟨⟨by decide, by decide, by decide, by decide⟩,
    (c3_amended (fun _ => envBoom) "boom" (fun _ _ _ => rfl) addrA addrA_valid
      1 10 (by decide) (by decide) (by decide)).2.1⟩

/-! ### Claim C5 — invalid contract address -/

/-- Claim C5, refuted at a concrete input. A call with the invalid address
`not-an-address` is throttled and retried three times (the `tenacity`
decorator retries the `AlchemyError` raised for the invalid address like
any other failure) before the failure is surfaced — the claim that the
failure is surfaced without any retry attempts is false. No provider log
request is made, which the amended claim keeps. -/
theorem c5_counterexample :
    getLogs (fun _ => envA) "not-an-address" 1 (some 10) none =
      ([Event.throttle] ++ ([Event.throttle] ++ [Event.throttle]),
       .error ("RetryError: " ++
          ("Failed to get logs: Invalid Ethereum address: " ++ "not-an-address")))
    ∧ (getLogs (fun _ => envA) "not-an-address" 1 (some 10) none).1.countP
        (fun e => isThrottle e) = 3
    ∧ (3 : Nat) ≠ 1 := by
  have hatt : ∀ i : Nat, getLogsAttempt envA "not-an-address" 1 (some 10) none =
      ([Event.throttle],
       .error ("Failed to get logs: Invalid Ethereum address: " ++ "not-an-address")) :=
    fun _ => getLogsAttempt_invalid envA "not-an-address" (by decide) 1 (some 10) none
  have hcall : getLogs (fun _ => envA) "not-an-address" 1 (some 10) none =
      ([Event.throttle] ++ ([Event.throttle] ++ [Event.throttle]),
       .error ("RetryError: " ++
          ("Failed to get logs: Invalid Ethereum address: " ++ "not-an-address"))) := by
    unfold getLogs
    exact retryRun_all_err _ _ _ _ _ _ _ (hatt 0) (hatt 1) (hatt 2)
  refine ⟨hcall, ?_, by decide⟩
  rw [hcall]
  decide

/-- Claim C5 as amended: an invalid contract address makes every attempt
raise before any provider request (no log request is ever issued), but the
retry decorator still runs three attempts before the failure surfaces as a
`RetryError` wrapping the invalid-address error. -/
theorem c5_amended (envs : Nat → Env) (addr : String)
    (ha : isValidAddress addr = false) (fb : Nat) (tb bs : Option Nat) :
    getLogs envs addr fb tb bs =
      ([Event.throttle] ++ ([Event.throttle] ++ [Event.throttle]),
       .error ("RetryError: " ++
          ("Failed to get logs: Invalid Ethereum address: " ++ addr)))
    ∧ fetchCallsOf (getLogs envs addr fb tb bs).1 = [] := by
  have hatt : ∀ i, getLogsAttempt (envs i) addr fb tb bs =
      ([Event.throttle],
       .error ("Failed to get logs: Invalid Ethereum address: " ++ addr)) :=
    fun i => getLogsAttempt_invalid (envs i) addr ha fb tb bs
  have hcall : getLogs envs addr fb tb bs =
      ([Event.throttle] ++ ([Event.throttle] ++ [Event.throttle]),
       .error ("RetryError: " ++
          ("Failed to get logs: Invalid Ethereum address: " ++ addr))) := by
    unfold getLogs
    exact retryRun_all_err _ _ _ _ _ _ _ (hatt 0) (hatt 1) (hatt 2)
  refine ⟨hcall, ?_⟩
  rw [hcall]
  rfl

/-- Witness for the amended C5 at the concrete invalid address `xyz`. -/
theorem c5_amended_witness :
    isValidAddress "xyz" = false
    ∧ fetchCallsOf (getLogs (fun _ => envA) "xyz" 3 none none).1 = [] :=
  ⟨by decide, (c5_amended (fun _ => envA) "xyz" (by decide) 3 none none).2⟩

/-! ### Claim C6 — return value of `get_logs` -/

/-- Claim C6, refuted at concrete inputs. Two scans that observe the same
total count of log entries (one each) return different values: the
returned value is the list of normalized entries itself, not the running
total count, so the return value is not determined by (and is not) the
count. -/
theorem c6_counterexample :
    (getLogs (fun _ => envA) addrA 1 (some 500) none).2 = .ok [formatLog rawA]
    ∧ (getLogs (fun _ => envB) addrA 1 (some 500) none).2 = .ok [formatLog rawB]
    ∧ [formatLog rawA].length = [formatLog rawB].length
    ∧ (getLogs (fun _ => envA) addrA 1 (some 500) none).2 ≠
        (getLogs (fun _ => envB) addrA 1 (some 500) none).2 := by
  have hattA : getLogsAttempt envA addrA 1 (some 500) none =
      ([Event.throttle, Event.fetchCall 1 500,
        Event.batchDelivered [formatLog rawA]], .ok [formatLog rawA]) := by
    have h := getLogsAttempt_ok envA (fun _ _ => [rawA]) (fun _ _ => rfl)
      addrA addrA_valid 1 500 (by decide) (by decide)
    simpa [subRanges_one_batch] using h
  have hattB : getLogsAttempt envB addrA 1 (some 500) none =
      ([Event.throttle, Event.fetchCall 1 500,
        Event.batchDelivered [formatLog rawB]], .ok [formatLog rawB]) := by
    have h := getLogsAttempt_ok envB (fun _ _ => [rawB]) (fun _ _ => rfl)
      addrA addrA_valid 1 500 (by decide) (by decide)
    simpa [subRanges_one_batch] using h
  have hcallA : getLogs (fun _ => envA) addrA 1 (some 500) none =
      ([Event.throttle, Event.fetchCall 1 500,
        Event.batchDelivered [formatLog rawA]], .ok [formatLog rawA]) := by
    unfold getLogs
    exact retryRun_succ_ok _ 2 0 _ _ hattA
  have hcallB : getLogs (fun _ => envB) addrA 1 (some 500) none =
      ([Event.throttle, Event.fetchCall 1 500,
        Event.batchDelivered [formatLog rawB]], .ok [formatLog rawB]) := by
    unfold getLogs
    exact retryRun_succ_ok _ 2 0 _ _ hattB
  refine ⟨by rw [hcallA], by rw [hcallB], by decide, ?_⟩
  rw [hcallA, hcallB]
  simp [formatLog, rawA, rawB]

/-- Claim C6 as amended: a successful call returns the full concatenated
list of normalized entries of all sub-ranges (equally, the flattening of
all delivered batches); the running total count is that list's length, not
the returned value itself. -/
theorem c6_amended (env : Env) (f : Nat → Nat → List RawLog)
    (hf : ∀ s e, env.fetch s e = .ok (f s e)) (addr : String)
    (ha : isValidAddress addr = true) (fb t : Nat) (hfb : fb ≠ 0)
    (ht : t ≠ 0) :
    (getLogs (fun _ => env) addr fb (some t) none).2 =
      .ok ((subRanges 1000 t fb).flatMap (fun p => (f p.1 p.2).map formatLog))
    ∧ (batchesOf (getLogs (fun _ => env) addr fb (some t) none).1).flatten =
        (subRanges 1000 t fb).flatMap (fun p => (f p.1 p.2).map formatLog)
    ∧ ((subRanges 1000 t fb).flatMap (fun p => (f p.1 p.2).map formatLog)).length =
        ((subRanges 1000 t fb).map (fun p => (f p.1 p.2).length)).sum := by
  have hatt := getLogsAttempt_ok env f hf addr ha fb t hfb ht
  have hcall : getLogs (fun _ => env) addr fb (some t) none =
      (Event.throttle :: (subRanges 1000 t fb).flatMap (fun p =>
          Event.fetchCall p.1 p.2 ::
            if (f p.1 p.2).isEmpty then []
            else [Event.batchDelivered ((f p.1 p.2).map formatLog)]),
       .ok ((subRanges 1000 t fb).flatMap (fun p => (f p.1 p.2).map formatLog))) := by
    unfold getLogs
    exact retryRun_succ_ok _ 2 0 _ _ hatt
  refine ⟨by rw [hcall], ?_, ?_⟩
  · rw [hcall]
    have hbat : batchesOf (Event.throttle :: (subRanges 1000 t fb).flatMap (fun p =>
        Event.fetchCall p.1 p.2 ::
          if (f p.1 p.2).isEmpty then []
          else [Event.batchDelivered ((f p.1 p.2).map formatLog)])) =
        ((subRanges 1000 t fb).filter (fun p => !(f p.1 p.2).isEmpty)).map
          (fun p => (f p.1 p.2).map formatLog) := by
      simpa [batchesOf] using batchesOf_flatMap
        (fun p => (f p.1 p.2).map formatLog)
        (fun p => (f p.1 p.2).isEmpty) (subRanges 1000 t fb)
    rw [hbat]
    exact flatten_filtered (fun p => (f p.1 p.2).map formatLog)
      (fun p => (f p.1 p.2).isEmpty)
      (fun p hp => by simp [List.isEmpty_iff.mp hp]) (subRanges 1000 t fb)
  · simp [List.flatMap_def, List.map_map, Function.comp_def, List.length_map]

/-- Witness for the amended C6 at a concrete one-batch scan. -/
theorem c6_amended_witness :
    (isValidAddress addrA = true ∧ (1 : Nat) ≠ 0 ∧ (500 : Nat) ≠ 0)
    ∧ (getLogs (fun _ => envA) addrA 1 (some 500) none).2 =
        .ok ((subRanges 1000 500 1).flatMap (fun _ => [rawA].map formatLog)) :=
  ⟨⟨by decide, by decide, by decide⟩,
    (c6_amended envA (fun _ _ => [rawA]) (fun _ _ => rfl) addrA addrA_valid
      1 500 (by decide) (by decide)).1⟩

/-! ### Claim C10 — falsy `to_block` -/

/-- Claim C10, confirmed: a `to_block` of 0 (Python falsy) is treated
exactly like an omitted `to_block` — both resolve to the provider chain
head at the start of the attempt, so a caller can never make the scan end
at block 0. -/
theorem c10_toBlock_falsy (envs : Nat → Env) (addr : String) (fb : Nat)
    (bs : Option Nat) :
    getLogs envs addr fb (some 0) bs = getLogs envs addr fb none bs
    ∧ ∀ env : Env, getLogsAttempt env addr fb (some 0) bs =
        getLogsAttempt env addr fb none bs :=
  ⟨rfl, fun _ => rfl⟩

/-! ### Character-level lemmas for Python `str.lower` -/

/-- `Char.ofNat` of a scalar value below the surrogate range keeps its
numeric value. -/
theorem toNat_ofNat_lt (n : Nat) (h1 : n < 0xd800) : (Char.ofNat n).toNat = n := by
  simp [Char.ofNat, Nat.isValidChar, h1, Char.ofNatAux, Char.toNat,
    UInt32.toNat, BitVec.ofNatLt]

/-- `str.lower` never produces an ASCII upper-case character. -/
theorem pyLowerChar_no_upper (c : Char) :
    ¬(65 ≤ (pyLowerChar c).toNat ∧ (pyLowerChar c).toNat ≤ 90) := by
  unfold pyLowerChar
  split
  · next h =>
    have h32 : (Char.ofNat (c.toNat + 32)).toNat = c.toNat + 32 :=
      toNat_ofNat_lt _ (by omega)
    rw [h32]
    omega
  · next h => omega

/-- `str.lower` is idempotent on characters. -/
theorem pyLowerChar_idem (c : Char) : pyLowerChar (pyLowerChar c) = pyLowerChar c := by
  by_cases h : 65 ≤ c.toNat ∧ c.toNat ≤ 90
  · have h32 : (Char.ofNat (c.toNat + 32)).toNat = c.toNat + 32 :=
      toNat_ofNat_lt _ (by omega)
    unfold pyLowerChar
    rw [if_pos h, if_neg (by rw [h32]; omega)]
  · unfold pyLowerChar
    rw [if_neg h, if_neg h]

/-- `str.lower` is idempotent on strings. -/
theorem pyLower_idem (s : String) : pyLower (pyLower s) = pyLower s := by
  unfold pyLower
  simp [List.map_map, Function.comp_def, pyLowerChar_idem]

/-! ### Claim C9 — address normalization in `Contract.__post_init__` -/

/-- Claim C9, confirmed: when the lower-cased address does not start with
`0x`, construction raises `ValueError`; when construction succeeds, the
stored address is exactly the lower-cased input, hence already
lower-case-normalized (a fixed point of `lower` with no ASCII upper-case
characters). The check runs after normalization, so a mixed-case `0X...`
prefix is accepted and stored as `0x...`. -/
theorem c9_contract_address (address ty nm : String) (d : Option Nat) :
    (strStartsWith (pyLower address) "0x" = false →
      mkContract address ty nm d = .error "Contract address must start with '0x'")
    ∧ (∀ c : Contract, mkContract address ty nm d = .ok c →
        c.address = pyLower address
        ∧ pyLower c.address = c.address
        ∧ ∀ ch ∈ c.address.data, ¬(65 ≤ ch.toNat ∧ ch.toNat ≤ 90)) := by
  constructor
  · intro h
    simp [mkContract, h]
  · intro c hc
    have haddr : c.address = pyLower address := by
      by_cases h : strStartsWith (pyLower address) "0x" = true
      · simp only [mkContract, h, if_true] at hc
        rw [← Except.ok.inj hc]
      · simp [mkContract, h] at hc
    refine ⟨haddr, by rw [haddr, pyLower_idem], ?_⟩
    intro ch hch
    rw [haddr] at hch
    unfold pyLower at hch
    simp only [List.mem_map] at hch
    obtain ⟨x, _, rfl⟩ := hch
    exact pyLowerChar_no_upper x

/-- Witness for C9: a rejected address and an accepted mixed-case address
stored lower-cased. -/
theorem c9_contract_address_witness :
    (strStartsWith (pyLower "QZ") "0x" = false
      ∧ mkContract "QZ" "tok" "nm" none =
          .error "Contract address must start with '0x'")
    ∧ (mkContract "0xAB" "tok" "nm" none =
        .ok { address := "0xab", type := "tok", name := "nm", deployed_at := none }
      ∧ ({ address := "0xab", type := "tok", name := "nm",
            deployed_at := none } : Contract).address = pyLower "0xAB") :=
  ⟨⟨by decide, (c9_contract_address "QZ" "tok" "nm" none).1 (by decide)⟩,
    ⟨by rfl,
      ((c9_contract_address "0xAB" "tok" "nm" none).2 _ (by rfl)).1⟩⟩

/-! ### Claim C8 — failure containment in the orchestrator -/

/-- The pair produced by `processDAO` split into its two components:
the state threads through every contract regardless of failures, and the
log lines are exactly one identity-bearing message per failing contract. -/
theorem processDAO_eq {σ : Type} (f : Contract → σ → σ × Option String)
    (cs : List Contract) (s : σ) :
    processDAO f cs s =
      (applyAll f cs s,
       (runSeq f cs s).filterMap
         (fun p => p.2.map (fun e => contractErrorLog p.1 e))) := by
  induction cs generalizing s with
  | nil => simp [processDAO, applyAll, runSeq]
  | cons c cs ih =>
    simp only [processDAO, applyAll, runSeq, List.foldl_cons,
      List.filterMap_cons, ih]
    cases h : (f c s).2 <;> simp [h, applyAll]

/-- The pair produced by the DAO loop of `main`, split the same way. -/
theorem runAll_eq {σ : Type} (g : DAO → σ → σ × Option String)
    (ds : List DAO) (s : σ) :
    runAll g ds s =
      (applyAll g ds s,
       (runSeq g ds s).filterMap
         (fun p => p.2.map (fun e => daoErrorLog p.1 e))) := by
  induction ds generalizing s with
  | nil => simp [runAll, applyAll, runSeq]
  | cons d ds ih =>
    simp only [runAll, applyAll, runSeq, List.foldl_cons,
      List.filterMap_cons, ih]
    cases h : (g d s).2 <;> simp [h, applyAll]

/-- Every element is attempted exactly once, in order. -/
theorem runSeq_fst {σ α : Type} (f : α → σ → σ × Option String)
    (xs : List α) (s : σ) : (runSeq f xs s).map Prod.fst = xs := by
  induction xs generalizing s with
  | nil => rfl
  | cons x xs ih => simp [runSeq, ih]

/-- Claim C8, confirmed: the per-contract loop catches a contract failure,
logs it with the contract's name, and still processes every following
contract (the final state is the fold of the per-contract step over ALL
contracts, and each contract appears exactly once, in order); the DAO loop
of `main` does the same at the DAO boundary, so no contract or DAO failure
aborts the run. -/
theorem c8_failure_containment {σ : Type}
    (f : Contract → σ → σ × Option String)
    (g : DAO → σ → σ × Option String)
    (cs : List Contract) (ds : List DAO) (s : σ) :
    (processDAO f cs s).1 = applyAll f cs s
    ∧ (processDAO f cs s).2 =
        (runSeq f cs s).filterMap
          (fun p => p.2.map (fun e => contractErrorLog p.1 e))
    ∧ (runSeq f cs s).map Prod.fst = cs
    ∧ (runAll g ds s).1 = applyAll g ds s
    ∧ (runAll g ds s).2 =
        (runSeq g ds s).filterMap
          (fun p => p.2.map (fun e => daoErrorLog p.1 e))
    ∧ (runSeq g ds s).map Prod.fst = ds :=
  ⟨by rw [processDAO_eq], by rw [processDAO_eq], runSeq_fst f cs s,
    by rw [runAll_eq], by rw [runAll_eq], runSeq_fst g ds s⟩

/-! ### Claim C4 — metadata fetch outcomes -/

/-- A successful attempt ends the ABI retry loop after one attempt. -/
theorem retryAbi_succ_ok (rs : Nat → HttpResult) (n i : Nat)
    (v : Option String) (h : getAbiAttempt (rs i) = .ok v) :
    retryAbi rs (n + 1) i = (1, .ok v) := by
  conv_lhs => rw [retryAbi.eq_def]
  simp only [h]

/-- A raising final attempt is converted by `retry_error_callback` into a
plain `None` return. -/
theorem retryAbi_one_err (rs : Nat → HttpResult) (i : Nat) (e : String)
    (h : getAbiAttempt (rs i) = .error e) :
    retryAbi rs 1 i = (1, .ok none) := by
  conv_lhs => rw [retryAbi.eq_def]
  simp only [h]

/-- A raising non-final attempt defers to the remaining attempts. -/
theorem retryAbi_succ_err (rs : Nat → HttpResult) (n i : Nat) (e : String)
    (h : getAbiAttempt (rs i) = .error e) :
    retryAbi rs (n + 1 + 1) i =
      ((retryAbi rs (n + 1) (i + 1)).1 + 1, (retryAbi rs (n + 1) (i + 1)).2) := by
  conv_lhs => rw [retryAbi.eq_def]
  simp only [h]

/-- The ABI retry loop never lets an exception escape: its outcome is
always a plain return value. -/
theorem retryAbi_ok_shape (rs : Nat → HttpResult) :
    ∀ n i, ∃ w, (retryAbi rs n i).2 = .ok w := by
  intro n
  induction n with
  | zero => exact fun _ => ⟨none, rfl⟩
  | succ m ih =>
    intro i
    cases h : getAbiAttempt (rs i) with
    | ok v => exact ⟨v, by rw [retryAbi_succ_ok rs m i v h]⟩
    | error e =>
      cases m with
      | zero => exact ⟨none, by rw [retryAbi_one_err rs i e h]⟩
      | succ k =>
        obtain ⟨w, hw⟩ := ih (i + 1)
        exact ⟨w, by rw [retryAbi_succ_err rs k i e h]; exact hw⟩

/-- Claim C4, confirmed. A verified first response returns its artifact in
one attempt; a not-verified / no-data first response returns `None` in one
attempt without being retried; raising attempts (rate limit reported by the
provider, or a transport error — both raise `EtherscanError`) are retried
up to the 3-attempt bound, a later verified response still succeeding; when
all three attempts raise, the call returns `None` (NotFound) instead of
propagating the raw error, and in fact no call outcome is ever a raised
exception. -/
theorem c4_metadata_fetch (rs : Nat → HttpResult) :
    (∀ d : ApiData, rs 0 = .ok d →
      (d.status == "1" && d.message == "OK") = true →
      getContractAbi rs = (1, .ok (some d.result)))
    ∧ (∀ d : ApiData, rs 0 = .ok d →
        (d.status == "1" && d.message == "OK") = false →
        containsSub "Max rate limit reached".data d.result.data = false →
        getContractAbi rs = (1, .ok none))
    ∧ (∀ e0 e1 : String, ∀ d : ApiData,
        getAbiAttempt (rs 0) = .error e0 → getAbiAttempt (rs 1) = .error e1 →
        rs 2 = .ok d → (d.status == "1" && d.message == "OK") = true →
        getContractAbi rs = (3, .ok (some d.result)))
    ∧ (∀ e0 e1 e2 : String,
        getAbiAttempt (rs 0) = .error e0 → getAbiAttempt (rs 1) = .error e1 →
        getAbiAttempt (rs 2) = .error e2 →
        getContractAbi rs = (3, .ok none))
    ∧ (∀ v : String, (getContractAbi rs).2 ≠ .error v) := by
  refine ⟨?_, ?_, ?_, ?_, ?_⟩
  · intro d h0 hok
    have hatt : getAbiAttempt (rs 0) = .ok (some d.result) := by
      simp [getAbiAttempt, h0, hok]
    exact retryAbi_succ_ok rs 2 0 _ hatt
  · intro d h0 hok hrl
    have hatt : getAbiAttempt (rs 0) = .ok none := by
      simp [getAbiAttempt, h0, hok, hrl]
    exact retryAbi_succ_ok rs 2 0 _ hatt
  · intro e0 e1 d h0 h1 h2 hok
    have hatt2 : getAbiAttempt (rs 2) = .ok (some d.result) := by
      simp [getAbiAttempt, h2, hok]
    have s2 : retryAbi rs 1 2 = (1, .ok (some d.result)) :=
      retryAbi_succ_ok rs 0 2 _ hatt2
    have s1 : retryAbi rs 2 1 =
        ((retryAbi rs 1 2).1 + 1, (retryAbi rs 1 2).2) :=
      retryAbi_succ_err rs 0 1 e1 h1
    have s0 : retryAbi rs 3 0 =
        ((retryAbi rs 2 1).1 + 1, (retryAbi rs 2 1).2) :=
      retryAbi_succ_err rs 1 0 e0 h0
    show retryAbi rs 3 0 = (3, .ok (some d.result))
    rw [s0, s1, s2]
  · intro e0 e1 e2 h0 h1 h2
    have s2 : retryAbi rs 1 2 = (1, .ok none) := retryAbi_one_err rs 2 e2 h2
    have s1 : retryAbi rs 2 1 =
        ((retryAbi rs 1 2).1 + 1, (retryAbi rs 1 2).2) :=
      retryAbi_succ_err rs 0 1 e1 h1
    have s0 : retryAbi rs 3 0 =
        ((retryAbi rs 2 1).1 + 1, (retryAbi rs 2 1).2) :=
      retryAbi_succ_err rs 1 0 e0 h0
    show retryAbi rs 3 0 = (3, .ok none)
    rw [s0, s1, s2]
  · intro v hv
    obtain ⟨w, hw⟩ := retryAbi_ok_shape rs 3 0
    have : (getContractAbi rs).2 = .ok w := hw
    rw [hv] at this
    exact Except.noConfusion this

/-- Witness for C4: a provider that is down on every attempt makes the
call return `None` after exactly three attempts, with no exception. -/
theorem c4_metadata_fetch_witness :
    getAbiAttempt (HttpResult.requestError "down") =
      .error ("Network error: " ++ "down")
    ∧ getContractAbi (fun _ => HttpResult.requestError "down") = (3, .ok none) :=
  ⟨rfl,
    (c4_metadata_fetch (fun _ => .requestError "down")).2.2.2.1
      ("Network error: " ++ "down") ("Network error: " ++ "down")
      ("Network error: " ++ "down") rfl rfl rfl⟩

/-! ### Claim C7 — are the two views attempted independently? -/

/-- Claim C7, refuted at a concrete input. When the JSON (structured-view)
write raises, `save_contract_data` re-raises at once (file_manager.py line
72) and the CSV (tabular-view) block is never reached: the tabular view is
NOT attempted, so the two views are not attempted independently. -/
theorem c7_counterexample :
    (saveContractData false true ⟨JsonFile.absent, none⟩
        [[("a", "1")]] true).attempted = [View.json]
    ∧ View.csv ∉ [View.json] := by
  exact ⟨rfl, by decide⟩

/-- Claim C7 as amended: on a non-empty batch the two views are written
sequentially, not independently. A structured-view (JSON) failure is
re-raised immediately and suppresses the tabular (CSV) attempt entirely; a
tabular failure is re-raised after the structured write succeeded; when
both succeed, both views are updated. In every failure case the error
propagates to the caller. -/
theorem c7_amended (jOk cOk : Bool) (st : StoreState) (data : List Rec)
    (append : Bool) (hne : data ≠ []) :
    (jOk = false →
      (saveContractData jOk cOk st data append).attempted = [View.json]
      ∧ (saveContractData jOk cOk st data append).result =
          .error "Error saving JSON data"
      ∧ (saveContractData jOk cOk st data append).state = st)
    ∧ (jOk = true → cOk = false →
        (saveContractData jOk cOk st data append).attempted = [View.json, View.csv]
        ∧ (saveContractData jOk cOk st data append).result =
            .error "Error saving CSV data"
        ∧ (saveContractData jOk cOk st data append).state =
            ⟨JsonFile.list (saveJson st.jsonFile data append), st.csvFile⟩)
    ∧ (jOk = true → cOk = true →
        (saveContractData jOk cOk st data append).attempted = [View.json, View.csv]
        ∧ (saveContractData jOk cOk st data append).result = .ok ()
        ∧ (saveContractData jOk cOk st data append).state =
            ⟨JsonFile.list (saveJson st.jsonFile data append),
              some (saveCsv st.csvFile data append)⟩) := by
  have hd : data.isEmpty = false := by
    simpa [List.isEmpty_iff] using hne
  refine ⟨?_, ?_, ?_⟩
  · intro hj
    subst hj
    simp [saveContractData, hd]
  · intro hj hc
    subst hj
    subst hc
    simp [saveContractData, hd]
  · intro hj hc
    subst hj
    subst hc
    simp [saveContractData, hd]

/-- Witness for the amended C7: a failing JSON write on a one-record batch
leaves only the JSON view attempted. -/
theorem c7_amended_witness :
    ([[("a", "1")]] : List Rec) ≠ []
    ∧ (saveContractData false true ⟨JsonFile.absent, none⟩
        [[("a", "1")]] true).attempted = [View.json] :=
  ⟨by decide,
    ((c7_amended false true ⟨JsonFile.absent, none⟩ [[("a", "1")]] true
      (by decide)).1 rfl).1⟩

/-! ### Lemmas about the column-name ordering and the fieldname union -/

/-- The code-point order on character lists is total. -/
theorem lexLe_total : ∀ xs ys : List Char, lexLe xs ys = true ∨ lexLe ys xs = true := by
  intro xs
  induction xs with
  | nil => intro ys; left; rfl
  | cons x xs ih =>
    intro ys
    cases ys with
    | nil => right; rfl
    | cons y ys =>
      by_cases h1 : x.toNat < y.toNat
      · left; simp [lexLe, h1]
      · by_cases h2 : y.toNat < x.toNat
        · right; simp [lexLe, h2]
        · rcases ih ys with h | h
          · left; simp [lexLe, h1, h2, h]
          · right; simp [lexLe, h1, h2, h]

/-- The code-point order on character lists is transitive. -/
theorem lexLe_trans : ∀ xs ys zs : List Char, lexLe xs ys = true →
    lexLe ys zs = true → lexLe xs zs = true := by
  intro xs
  induction xs with
  | nil => intro ys zs _ _; rfl
  | cons x xs ih =>
    intro ys zs hxy hyz
    cases ys with
    | nil => simp [lexLe] at hxy
    | cons y ys =>
      cases zs with
      | nil => simp [lexLe] at hyz
      | cons z zs =>
        simp only [lexLe] at hxy hyz ⊢
        split_ifs at hxy hyz ⊢ <;>
          first
            | rfl
            | omega
            | (exact ih ys zs hxy hyz)

/-- Folding the set-insertion step collects exactly the elements of the
accumulator and the list. -/
theorem mem_dedupKeep_aux (l : List String) :
    ∀ acc k, (k ∈ l.foldl (fun a k => if k ∈ a then a else a ++ [k]) acc) ↔
      k ∈ acc ∨ k ∈ l := by
  induction l with
  | nil => simp
  | cons x l ih =>
    intro acc k
    simp only [List.foldl_cons]
    by_cases hx : x ∈ acc
    · rw [if_pos hx, ih]
      simp only [List.mem_cons]
      constructor
      · rintro (h | h)
        · exact Or.inl h
        · exact Or.inr (Or.inr h)
      · rintro (h | h | h)
        · exact Or.inl h
        · subst h; exact Or.inl hx
        · exact Or.inr h
    · rw [if_neg hx, ih]
      simp only [List.mem_append, List.mem_singleton, List.mem_cons]
      tauto

/-- Membership in a Python set built from a list. -/
theorem mem_dedupKeep (l : List String) (k : String) :
    k ∈ dedupKeep l ↔ k ∈ l := by
  simpa using mem_dedupKeep_aux l [] k

/-- The set of a non-empty list is non-empty. -/
theorem dedupKeep_ne_nil (l : List String) (h : l ≠ []) : dedupKeep l ≠ [] := by
  cases l with
  | nil => exact absurd rfl h
  | cons x l =>
    intro hcontra
    have hx : x ∈ dedupKeep (x :: l) :=
      (mem_dedupKeep _ x).mpr (List.mem_cons_self x l)
    rw [hcontra] at hx
    exact List.not_mem_nil x hx

/-- `sorted()` keeps exactly the members of its input. -/
theorem mem_sortStrings (l : List String) (k : String) :
    k ∈ sortStrings l ↔ k ∈ l :=
  (List.perm_insertionSort _ l).mem_iff

/-- `sorted()` sorts: adjacent pairs of the output respect the
lexicographic order. -/
theorem sortStrings_sorted (l : List String) :
    (sortStrings l).Pairwise (fun a b => strLe a b = true) := by
  haveI : IsTotal String (fun a b => strLe a b = true) :=
    ⟨fun a b => lexLe_total a.data b.data⟩
  haveI : IsTrans String (fun a b => strLe a b = true) :=
    ⟨fun a b c hab hbc => lexLe_trans a.data b.data c.data hab hbc⟩
  exact List.sorted_insertionSort _ l

/-- The sorted fieldname union contains exactly the existing header's
names and the keys of the incoming records. -/
theorem mem_allFieldnames (data : List Rec) (h : List String) (k : String) :
    k ∈ allFieldnames data (dedupKeep h) ↔
      k ∈ h ∨ ∃ r ∈ data, k ∈ recKeys r := by
  unfold allFieldnames
  rw [mem_sortStrings, mem_dedupKeep]
  simp [List.mem_append, List.mem_flatMap, mem_dedupKeep]

/-! ### Claim C1 — tabular append and header drift -/

/-- Claim C1, confirmed. Writing a non-empty batch in append mode to an
existing tabular file with a non-empty header: (a) when every key of the
batch is already in the header, the file is extended in place — the entire
prior file (header and rows) is preserved verbatim as a prefix and only
the new rows are appended; (b) when some key of the batch is not in the
header, the whole file is rewritten: the new header is the
lexicographically sorted union of the old header and all incoming keys,
every previously stored row is reprojected onto the new header with the
empty string for any column not among its own (in particular every new
column is backfilled blank), and the new rows follow. -/
theorem c1_tabular_append (h : List String) (rows : List (List String))
    (data : List Rec) (hne : data ≠ []) (hh : h ≠ []) :
    ((∀ r ∈ data, ∀ k ∈ recKeys r, k ∈ h) →
      saveCsv (some (h :: rows)) data true =
        (h :: rows) ++ data.map (mkRow (allFieldnames data (dedupKeep h))))
    ∧ ((∃ r ∈ data, ∃ k ∈ recKeys r, k ∉ h) →
        saveCsv (some (h :: rows)) data true =
          allFieldnames data (dedupKeep h) ::
            (rows.map (fun cells => (allFieldnames data (dedupKeep h)).map
                (fun k => recGetD (h.zip cells) k ""))
              ++ data.map (mkRow (allFieldnames data (dedupKeep h))))
        ∧ (∀ k, k ∈ allFieldnames data (dedupKeep h) ↔
            k ∈ h ∨ ∃ r ∈ data, k ∈ recKeys r)
        ∧ (allFieldnames data (dedupKeep h)).Pairwise
            (fun a b => strLe a b = true)
        ∧ (∀ cells : List String, ∀ k, k ∉ h →
            recGetD (h.zip cells) k "" = "")) := by
  constructor
  · intro hsub
    have hset : eqAsSet (allFieldnames data (dedupKeep h)) (dedupKeep h) = true := by
      simp only [eqAsSet, Bool.and_eq_true, List.all_eq_true]
      constructor
      · intro x hx
        rcases (mem_allFieldnames data h x).mp hx with hxh | ⟨r, hr, hk⟩
        · simpa [List.elem_eq_mem, mem_dedupKeep] using hxh
        · simpa [List.elem_eq_mem, mem_dedupKeep] using hsub r hr x hk
      · intro x hx
        have : x ∈ h := (mem_dedupKeep h x).mp hx
        simpa [List.elem_eq_mem, mem_allFieldnames data h x] using Or.inl this
    simp [saveCsv, csvHeader, hset]
  · rintro ⟨r0, hr0, k0, hk0, hk0n⟩
    have hnil : (dedupKeep h).isEmpty = false := by
      simpa [List.isEmpty_iff] using dedupKeep_ne_nil h hh
    have hset : eqAsSet (allFieldnames data (dedupKeep h)) (dedupKeep h) = false := by
      apply Bool.eq_false_iff.mpr
      intro habs
      simp only [eqAsSet, Bool.and_eq_true, List.all_eq_true] at habs
      have hk0in : k0 ∈ allFieldnames data (dedupKeep h) :=
        (mem_allFieldnames data h k0).mpr (Or.inr ⟨r0, hr0, hk0⟩)
      have hk0h : k0 ∈ h := by
        simpa [List.elem_eq_mem, mem_dedupKeep] using habs.1 k0 hk0in
      exact hk0n hk0h
    refine ⟨?_, mem_allFieldnames data h, sortStrings_sorted _, ?_⟩
    · simp [saveCsv, csvHeader, hset, hnil]
    · intro cells k hk
      have hfind : (h.zip cells).find? (fun p => p.1 == k) = none := by
        rw [List.find?_eq_none]
        intro p hp
        have hmem := List.of_mem_zip hp
        simp only [beq_iff_eq]
        intro hcontra
        exact hk (hcontra ▸ hmem.1)
      simp [recGetD, hfind]

/-- Witness for C1: both branches at concrete one-column files. Appending
a batch whose only key `a` is already the header leaves the old file as a
prefix; appending a batch with the new key `b` rewrites the file with the
sorted union header `[a, b]` and backfills the old row with an empty
cell. -/
theorem c1_tabular_append_witness :
    (([[("a", "2")]] : List Rec) ≠ [] ∧ (["a"] : List String) ≠ [])
    ∧ saveCsv (some [["a"], ["1"]]) [[("a", "2")]] true = [["a"], ["1"], ["2"]]
    ∧ saveCsv (some [["a"], ["1"]]) [[("b", "3")]] true =
        [["a", "b"], ["1", ""], ["", "3"]] := by
  refine ⟨⟨by decide, by decide⟩, ?_, ?_⟩
  · rw [(c1_tabular_append ["a"] [["1"]] [[("a", "2")]] (by decide) (by decide)).1
      (by decide)]
    decide
  · rw [((c1_tabular_append ["a"] [["1"]] [[("b", "3")]] (by decide) (by decide)).2
      (by decide)).1]
    decide

end DaoExtractor
